import Mathlib

/-!
Shallow embedding of the SQL lexer in dbms/src/Parsers/Lexer.cpp.

The buffer is a `List Char` of bytes; the lexer's `begin` pointer is offset 0,
its `end` pointer is `s.length`, and the mutable cursor `pos` is a `Nat`
offset.  `nextToken s pos` returns the produced token together with the value
of the cursor after the call, exactly mirroring `Lexer::nextToken`.
-/

namespace DB

/-- Token kinds, from TokenType in Parsers/Lexer.h (the closed enumeration of
section 3 of the specification). -/
inductive TokenType where
  | Whitespace
  | Comment
  | EndOfStream
  | BareWord
  | Number
  | StringLiteral
  | QuotedIdentifier
  | OpeningRoundBracket
  | ClosingRoundBracket
  | OpeningSquareBracket
  | ClosingSquareBracket
  | Comma
  | Semicolon
  | Dot
  | QuestionMark
  | Colon
  | Plus
  | Minus
  | Asterisk
  | Division
  | Modulo
  | Equals
  | NotEquals
  | Less
  | Greater
  | LessOrEquals
  | GreaterOrEquals
  | Concatenation
  | Arrow
  | Error
  | ErrorMultilineCommentIsNotClosed
  | ErrorSingleQuoteIsNotClosed
  | ErrorDoubleQuoteIsNotClosed
  | ErrorBackQuoteIsNotClosed
  | ErrorSingleExclamationMark
  | ErrorSinglePipeMark
  | ErrorWordWithoutWhitespace
deriving DecidableEq, Repr

/-- Modelled from the spec: a token is a kind together with the half-open byte
range `[tokBegin, tokEnd)` into the caller's buffer (Token in Parsers/Lexer.h,
which is not under src/).  `Token(type, b, len)` in the code becomes
`mk type b (b + len)`; `Token(type, b, e)` becomes `mk type b e`. -/
structure Token where
  type : TokenType
  tokBegin : Nat
  tokEnd : Nat
deriving DecidableEq, Repr

/-- The byte of the buffer at a given offset (a NUL sentinel out of range;
every access in the lexer is guarded by a bounds test, as in the C code). -/
def byteAt (s : List Char) (i : Nat) : Char :=
  s.getD i (Char.ofNat 0)

/-- The single-quote byte 0x27. -/
def singleQuoteChar : Char := Char.ofNat 39

/-- The double-quote byte 0x22. -/
def doubleQuoteChar : Char := Char.ofNat 34

/-- The backquote byte 0x60. -/
def backQuoteChar : Char := Char.ofNat 96

/-- The backslash byte 0x5c. -/
def backslashChar : Char := Char.ofNat 92

/-- The newline byte 0x0a. -/
def newlineChar : Char := Char.ofNat 10

/-- Modelled from the spec: isWhitespaceASCII from Common/StringUtils.h (not
under src/) recognizes space, tab, newline, CR, form feed and vertical tab. -/
def isWhitespaceASCII (c : Char) : Bool :=
  c == ' ' || c == Char.ofNat 9 || c == newlineChar || c == Char.ofNat 13 ||
    c == Char.ofNat 12 || c == Char.ofNat 11

/-- Modelled from the spec: ASCII decimal digit (isNumericASCII in
Common/StringUtils.h). -/
def isNumericASCII (c : Char) : Bool :=
  '0' ≤ c && c ≤ '9'

/-- Modelled from the spec: ASCII letter. -/
def isAlphaASCII (c : Char) : Bool :=
  ('a' ≤ c && c ≤ 'z') || ('A' ≤ c && c ≤ 'Z')

/-- Modelled from the spec: ASCII letter or digit (isAlphaNumericASCII in
Common/StringUtils.h). -/
def isAlphaNumericASCII (c : Char) : Bool :=
  isAlphaASCII c || isNumericASCII c

/-- Modelled from the spec: ASCII letter, digit or underscore
(isWordCharASCII in Common/StringUtils.h). -/
def isWordCharASCII (c : Char) : Bool :=
  isAlphaNumericASCII c || c == '_'

/-- Modelled from the spec: find_first_symbols over two symbols, from
common/find_first_symbols.h (not under src/): the first offset at or after
`pos` holding `a` or `b`, or the buffer end if there is none. -/
def find_first_symbols2 (a b : Char) (s : List Char) (pos : Nat) : Nat :=
  pos + (s.drop pos).findIdx (fun c => c == a || c == b)

/-- Modelled from the spec: find_first_symbols over one symbol: the first
offset at or after `pos` holding `a`, or the buffer end if there is none. -/
def find_first_symbols1 (a : Char) (s : List Char) (pos : Nat) : Nat :=
  pos + (s.drop pos).findIdx (fun c => c == a)

/-- `while (pos < end && p(*pos)) ++pos;` — the first offset at or after
`pos` whose byte fails `p`, or the buffer end. -/
def skipWhile (p : Char → Bool) (s : List Char) (pos : Nat) : Nat :=
  pos + ((s.drop pos).takeWhile p).length

/-- The exponent step shared by the two numeric branches of
`Lexer::nextToken` (lines 110-120 and 157-167 are textually identical once
`pos < end - 1` and `pos + 1 < end` are both read as `pos + 1 < end`):
if the byte is `e` or `p` and at least one byte remains after it, consume it;
then consume a `+`/`-` sign only when at least one byte remains after the
sign; then consume any decimal digits. -/
def expTail (s : List Char) (p : Nat) : Nat :=
  if p + 1 < s.length ∧ (byteAt s p = 'e' ∨ byteAt s p = 'p') then
    skipWhile isNumericASCII s
      (if p + 2 < s.length ∧ (byteAt s (p + 1) = '-' ∨ byteAt s (p + 1) = '+') then p + 2 else p + 1)
  else p

/-- The loop of `quotedString` (Lexer.cpp lines 17-44), parameterized over the
quote byte and the success/error kinds.  `fuel` only bounds the recursion;
every recursive call advances `pos` by at least two, so any fuel of at least
`s.length + 1` (the amount supplied by `nextToken`) is never exhausted. -/
def quotedStringLoop (fuel : Nat) (q : Char) (succ err : TokenType)
    (s : List Char) (tb pos : Nat) : Token × Nat :=
  match fuel with
  | 0 => (⟨err, tb, s.length⟩, s.length)
  | fuel + 1 =>
    let e := s.length
    let p1 := find_first_symbols2 q backslashChar s pos
    if e ≤ p1 then (⟨err, tb, e⟩, e)
    else if byteAt s p1 = q then
      if p1 + 1 < e ∧ byteAt s (p1 + 1) = q then
        quotedStringLoop fuel q succ err s tb (p1 + 2)
      else (⟨succ, tb, p1 + 1⟩, p1 + 1)
    else if byteAt s p1 = backslashChar then
      if e ≤ p1 + 1 then (⟨err, tb, e⟩, e)
      else quotedStringLoop fuel q succ err s tb (p1 + 2)
    else (⟨err, tb, e⟩, e)

/-- The block-comment loop of `Lexer::nextToken` (lines 204-214):
`while (pos <= end - 2)` scanning for `*/`.  On failure the C code returns
the error token with range up to `end` but does not move the member cursor,
which the returned cursor value reproduces.  `fuel` only bounds the
recursion; `nextToken` supplies `s.length + 1`, which is never exhausted. -/
def multilineCommentLoop (fuel : Nat) (s : List Char) (tb pos : Nat) : Token × Nat :=
  match fuel with
  | 0 => (⟨.ErrorMultilineCommentIsNotClosed, tb, s.length⟩, pos)
  | fuel + 1 =>
    if pos + 2 ≤ s.length then
      if byteAt s pos = '*' ∧ byteAt s (pos + 1) = '/' then
        (⟨.Comment, tb, pos + 2⟩, pos + 2)
      else multilineCommentLoop fuel s tb (pos + 1)
    else (⟨.ErrorMultilineCommentIsNotClosed, tb, s.length⟩, pos)

/-- `Lexer::nextToken`: one call to `next()`.  The result is the produced
token together with the cursor value after the call. -/
def nextToken (s : List Char) (pos : Nat) : Token × Nat :=
  let e := s.length
  if e ≤ pos then (⟨.EndOfStream, e, e⟩, pos)
  else
    let c := byteAt s pos
    if isWhitespaceASCII c = true then
      let p := skipWhile isWhitespaceASCII s (pos + 1)
      (⟨.Whitespace, pos, p⟩, p)
    else if isAlphaASCII c = true ∨ c = '_' then
      if 0 < pos ∧ isWordCharASCII (byteAt s (pos - 1)) = true then
        (⟨.ErrorWordWithoutWhitespace, pos, pos + 1⟩, pos)
      else
        let p := skipWhile isWordCharASCII s (pos + 1)
        (⟨.BareWord, pos, p⟩, p)
    else if isNumericASCII c = true then
      let p0 := if pos + 2 < e ∧ c = '0' ∧ (byteAt s (pos + 1) = 'x' ∨ byteAt s (pos + 1) = 'b')
                then pos + 2 else pos
      let p1 := skipWhile isNumericASCII s p0
      let p2 := if p1 < e ∧ byteAt s p1 = '.' then skipWhile isNumericASCII s (p1 + 1) else p1
      let p3 := expTail s p2
      (⟨.Number, pos, p3⟩, p3)
    else if c = singleQuoteChar then
      quotedStringLoop (e + 1) singleQuoteChar .StringLiteral .ErrorSingleQuoteIsNotClosed s pos (pos + 1)
    else if c = doubleQuoteChar then
      quotedStringLoop (e + 1) doubleQuoteChar .QuotedIdentifier .ErrorDoubleQuoteIsNotClosed s pos (pos + 1)
    else if c = backQuoteChar then
      quotedStringLoop (e + 1) backQuoteChar .QuotedIdentifier .ErrorBackQuoteIsNotClosed s pos (pos + 1)
    else if c = '(' then (⟨.OpeningRoundBracket, pos, pos + 1⟩, pos + 1)
    else if c = ')' then (⟨.ClosingRoundBracket, pos, pos + 1⟩, pos + 1)
    else if c = '[' then (⟨.OpeningSquareBracket, pos, pos + 1⟩, pos + 1)
    else if c = ']' then (⟨.ClosingSquareBracket, pos, pos + 1⟩, pos + 1)
    else if c = ',' then (⟨.Comma, pos, pos + 1⟩, pos + 1)
    else if c = ';' then (⟨.Semicolon, pos, pos + 1⟩, pos + 1)
    else if c = '.' then
      if 0 < pos ∧ (byteAt s (pos - 1) = ')' ∨ byteAt s (pos - 1) = ']' ∨
          isAlphaNumericASCII (byteAt s (pos - 1)) = true) then
        (⟨.Dot, pos, pos + 1⟩, pos + 1)
      else
        let p1 := skipWhile isNumericASCII s (pos + 1)
        let p2 := expTail s p1
        (⟨.Number, pos, p2⟩, p2)
    else if c = '+' then (⟨.Plus, pos, pos + 1⟩, pos + 1)
    else if c = '-' then
      if pos + 1 < e ∧ byteAt s (pos + 1) = '>' then (⟨.Arrow, pos, pos + 2⟩, pos + 2)
      else if pos + 1 < e ∧ byteAt s (pos + 1) = '-' then
        let p := find_first_symbols1 newlineChar s (pos + 2)
        (⟨.Comment, pos, p⟩, p)
      else (⟨.Minus, pos, pos + 1⟩, pos + 1)
    else if c = '*' then (⟨.Asterisk, pos, pos + 1⟩, pos + 1)
    else if c = '/' then
      if pos + 1 < e ∧ (byteAt s (pos + 1) = '/' ∨ byteAt s (pos + 1) = '*') then
        if byteAt s (pos + 1) = '/' then
          let p := find_first_symbols1 newlineChar s (pos + 2)
          (⟨.Comment, pos, p⟩, p)
        else multilineCommentLoop (e + 1) s pos (pos + 2)
      else (⟨.Division, pos, pos + 1⟩, pos + 1)
    else if c = '%' then (⟨.Modulo, pos, pos + 1⟩, pos + 1)
    else if c = '=' then
      if pos + 1 < e ∧ byteAt s (pos + 1) = '=' then (⟨.Equals, pos, pos + 2⟩, pos + 2)
      else (⟨.Equals, pos, pos + 1⟩, pos + 1)
    else if c = '!' then
      if pos + 1 < e ∧ byteAt s (pos + 1) = '=' then (⟨.NotEquals, pos, pos + 2⟩, pos + 2)
      else (⟨.ErrorSingleExclamationMark, pos, pos + 1⟩, pos + 1)
    else if c = '<' then
      if pos + 1 < e ∧ byteAt s (pos + 1) = '=' then (⟨.LessOrEquals, pos, pos + 2⟩, pos + 2)
      else if pos + 1 < e ∧ byteAt s (pos + 1) = '>' then (⟨.NotEquals, pos, pos + 2⟩, pos + 2)
      else (⟨.Less, pos, pos + 1⟩, pos + 1)
    else if c = '>' then
      if pos + 1 < e ∧ byteAt s (pos + 1) = '=' then (⟨.GreaterOrEquals, pos, pos + 2⟩, pos + 2)
      else (⟨.Greater, pos, pos + 1⟩, pos + 1)
    else if c = '?' then (⟨.QuestionMark, pos, pos + 1⟩, pos + 1)
    else if c = ':' then (⟨.Colon, pos, pos + 1⟩, pos + 1)
    else if c = '|' then
      if pos + 1 < e ∧ byteAt s (pos + 1) = '|' then (⟨.Concatenation, pos, pos + 2⟩, pos + 2)
      else (⟨.ErrorSinglePipeMark, pos, pos + 1⟩, pos + 1)
    else (⟨.Error, pos, pos + 1⟩, pos + 1)

/-- The cursor after `n` calls to `next()` starting from the freshly
constructed lexer (cursor at offset 0). -/
def posIter (s : List Char) : Nat → Nat
  | 0 => 0
  | n + 1 => (nextToken s (posIter s n)).2

/-- The token returned by the `(n+1)`-st call to `next()`. -/
def tokenAt (s : List Char) (n : Nat) : Token :=
  (nextToken s (posIter s n)).1

end DB

namespace DB

/-- C1: the claim says every single-character error token leaves the cursor one
byte past the token's begin.  For ErrorWordWithoutWhitespace the code returns
`Token(ErrorWordWithoutWhitespace, pos, 1)` without advancing `pos`: on the
buffer "0a", after the Number token the call at cursor 1 returns the length-1
error token `[1, 2)` but the cursor stays at 1, the token's begin, not at 2. -/
theorem wordAbutment_cursor_bug :
    (nextToken ['0', 'a'] 1).1.type = TokenType.ErrorWordWithoutWhitespace ∧
    (nextToken ['0', 'a'] 1).1.tokBegin = 1 ∧
    (nextToken ['0', 'a'] 1).1.tokEnd = 2 ∧
    (nextToken ['0', 'a'] 1).2 = 1 ∧
    (nextToken ['0', 'a'] 1).2 ≠ (nextToken ['0', 'a'] 1).1.tokBegin + 1 := by
  decide

/-- C2: the claim says successive token ranges are adjacent, non-overlapping,
and end with EndOfStream.  On the buffer "0a" the second and third calls both
return the ErrorWordWithoutWhitespace token `[1, 2)` (the cursor is never
advanced past the abutting word character), so the third token does not start
where the second one ends and the ranges overlap. -/
theorem coverage_bug :
    tokenAt ['0', 'a'] 1 = ⟨TokenType.ErrorWordWithoutWhitespace, 1, 2⟩ ∧
    tokenAt ['0', 'a'] 2 = ⟨TokenType.ErrorWordWithoutWhitespace, 1, 2⟩ ∧
    (tokenAt ['0', 'a'] 2).tokBegin ≠ (tokenAt ['0', 'a'] 1).tokEnd := by
  decide

/-- C3: the claim says repeated calls reach EndOfStream after finitely many
tokens.  On the buffer "0a" every call after the first returns the same
ErrorWordWithoutWhitespace token without advancing the cursor, so the stream
never produces EndOfStream. -/
theorem stream_never_ends_bug :
    ∀ n : Nat, tokenAt ['0', 'a'] (n + 1) = ⟨TokenType.ErrorWordWithoutWhitespace, 1, 2⟩ ∧
      (tokenAt ['0', 'a'] (n + 1)).type ≠ TokenType.EndOfStream := by
  have hpos : ∀ n : Nat, posIter ['0', 'a'] (n + 1) = 1 := by
    intro n
    induction n with
    | zero => decide
    | succ m ih =>
        show (nextToken ['0', 'a'] (posIter ['0', 'a'] (m + 1))).2 = 1
        rw [ih]
        decide
  intro n
  have ht : tokenAt ['0', 'a'] (n + 1) = ⟨TokenType.ErrorWordWithoutWhitespace, 1, 2⟩ := by
    show (nextToken ['0', 'a'] (posIter ['0', 'a'] (n + 1))).1 = _
    rw [hpos n]
    decide
  exact ⟨ht, by rw [ht]; decide⟩

/-- C4: the claim says that after an unterminated-construct error token the
next call returns EndOfStream.  For an unterminated block comment the code
returns the error token with range up to `end` but leaves the cursor at
`end - 1` whenever at least one byte follows the opening: on "/*a" the first
call returns the error token `[0, 3)` with cursor 2, and the second call
returns a BareWord token, not EndOfStream. -/
theorem unterminated_comment_cursor_bug :
    nextToken ['/', '*', 'a'] 0 = (⟨TokenType.ErrorMultilineCommentIsNotClosed, 0, 3⟩, 2) ∧
    (nextToken ['/', '*', 'a'] 2).1 = ⟨TokenType.BareWord, 2, 3⟩ ∧
    (nextToken ['/', '*', 'a'] 2).1.type ≠ TokenType.EndOfStream := by
  decide

/-- C5 counterexample: the claim says a leading `0` followed by `x` or `b` is
always consumed as a two-byte radix prefix, but the code also requires a byte
after the `x`/`b` (`pos < end - 2`).  On the two-byte buffer "0x" the emitted
Number token is `[0, 1)`: it does not contain the `x`. -/
theorem radix_prefix_cex :
    nextToken ['0', 'x'] 0 = (⟨TokenType.Number, 0, 1⟩, 1) ∧
    ¬ 2 ≤ (nextToken ['0', 'x'] 0).1.tokEnd := by
  decide

/-- C6 counterexample: the claim says the exponent sign is consumed whenever
present, so "1e+" would be one Number token of length 3; the code consumes the
sign only when at least one byte remains after it, so "1e+" yields a Number
token of length 2 followed by a Plus token. -/
theorem exponent_sign_cex :
    nextToken ['1', 'e', '+'] 0 = (⟨TokenType.Number, 0, 2⟩, 2) ∧
    (nextToken ['1', 'e', '+'] 0).1.tokEnd - (nextToken ['1', 'e', '+'] 0).1.tokBegin ≠ 3 ∧
    (nextToken ['1', 'e', '+'] 2).1 = ⟨TokenType.Plus, 2, 3⟩ := by
  decide

/-- C8 counterexample: the doubled-quote input consists of seven bytes
(quote, i, t, quote, quote, s, quote), and the single StringLiteral token
emitted for it covers all seven, so its length is 7, not 6 as claimed. -/
theorem quote_doubling_cex :
    nextToken [singleQuoteChar, 'i', 't', singleQuoteChar, singleQuoteChar, 's', singleQuoteChar] 0 =
      (⟨TokenType.StringLiteral, 0, 7⟩, 7) ∧
    (nextToken [singleQuoteChar, 'i', 't', singleQuoteChar, singleQuoteChar, 's', singleQuoteChar] 0).1.tokEnd -
      (nextToken [singleQuoteChar, 'i', 't', singleQuoteChar, singleQuoteChar, 's', singleQuoteChar] 0).1.tokBegin ≠ 6 := by
  decide

end DB

namespace DB

/-- The skipped run starts at or after the starting offset. -/
theorem skipWhile_le (p : Char → Bool) (s : List Char) (pos : Nat) :
    pos ≤ skipWhile p s pos :=
  Nat.le_add_right _ _

/-- The exponent step never moves the cursor backwards. -/
theorem expTail_le (s : List Char) (p : Nat) : p ≤ expTail s p := by
  unfold expTail
  split
  · refine Nat.le_trans ?_ (skipWhile_le isNumericASCII s _)
    split <;> omega
  · exact Nat.le_refl p

/-- When a forward scan for a predicate stops strictly before the buffer end,
the byte at the stopping offset satisfies the predicate. -/
theorem byteAt_findIdx (p : Char → Bool) (s : List Char) (pos : Nat)
    (h : pos + (s.drop pos).findIdx p < s.length) :
    p (byteAt s (pos + (s.drop pos).findIdx p)) = true := by
  have hdl : (s.drop pos).length = s.length - pos := List.length_drop pos s
  have hle : (s.drop pos).findIdx p ≤ (s.drop pos).length := List.findIdx_le_length p
  have hk : (s.drop pos).findIdx p < (s.drop pos).length := by omega
  have hgd : byteAt s (pos + (s.drop pos).findIdx p) =
      (s.drop pos).get ⟨(s.drop pos).findIdx p, hk⟩ := by
    unfold byteAt
    rw [List.getD_eq_getElem?_getD, ← List.getElem?_drop, List.getElem?_eq_getElem hk]
    simp [List.get_eq_getElem]
  rw [hgd, List.get_eq_getElem]
  exact List.findIdx_getElem (w := hk)

/-- C10: in quotedString, whenever the forward scan for the next quote or
backslash stops strictly before the buffer end, the byte there is the quote
character or a backslash, so the fall-through branch after the two tests
(marked unreachable in the code) is never executed. -/
theorem quoted_scan_stop_sound (q : Char) (s : List Char) (pos : Nat)
    (h : find_first_symbols2 q backslashChar s pos < s.length) :
    byteAt s (find_first_symbols2 q backslashChar s pos) = q ∨
    byteAt s (find_first_symbols2 q backslashChar s pos) = backslashChar := by
  unfold find_first_symbols2 at h ⊢
  have hb := byteAt_findIdx (fun c => c == q || c == backslashChar) s pos h
  simpa [Bool.or_eq_true, beq_iff_eq] using hb

/-- Witness for C10 at a concrete input: the scan over "a'" from offset 0
stops at offset 1, on the quote byte. -/
theorem quoted_scan_stop_sound_witness :
    byteAt ['a', singleQuoteChar]
        (find_first_symbols2 singleQuoteChar backslashChar ['a', singleQuoteChar] 0) =
      singleQuoteChar ∨
    byteAt ['a', singleQuoteChar]
        (find_first_symbols2 singleQuoteChar backslashChar ['a', singleQuoteChar] 0) =
      backslashChar :=
  quoted_scan_stop_sound singleQuoteChar ['a', singleQuoteChar] 0 (by decide)

end DB

namespace DB

/-- C9: a line comment opened by `--` (and likewise by `//`) extends from its
opening bytes up to but not including the next newline byte, or to the end of
the buffer when there is no newline: the Comment token and the cursor both
stop at the first newline at or after the two opening bytes, the byte at that
stopping offset (when it is inside the buffer) is the newline itself, and the
input "x -- c\ny" tokenizes as BareWord, Whitespace, Comment("-- c"),
Whitespace("\n"), BareWord, EndOfStream. -/
theorem line_comment_extent (s : List Char) (pos : Nat) :
    (pos + 1 < s.length → byteAt s pos = '-' → byteAt s (pos + 1) = '-' →
      nextToken s pos = (⟨TokenType.Comment, pos, find_first_symbols1 newlineChar s (pos + 2)⟩,
        find_first_symbols1 newlineChar s (pos + 2))) ∧
    (pos + 1 < s.length → byteAt s pos = '/' → byteAt s (pos + 1) = '/' →
      nextToken s pos = (⟨TokenType.Comment, pos, find_first_symbols1 newlineChar s (pos + 2)⟩,
        find_first_symbols1 newlineChar s (pos + 2))) ∧
    (find_first_symbols1 newlineChar s (pos + 2) < s.length →
      byteAt s (find_first_symbols1 newlineChar s (pos + 2)) = newlineChar) ∧
    (tokenAt ['x', ' ', '-', '-', ' ', 'c', newlineChar, 'y'] 0 = ⟨TokenType.BareWord, 0, 1⟩ ∧
      tokenAt ['x', ' ', '-', '-', ' ', 'c', newlineChar, 'y'] 1 = ⟨TokenType.Whitespace, 1, 2⟩ ∧
      tokenAt ['x', ' ', '-', '-', ' ', 'c', newlineChar, 'y'] 2 = ⟨TokenType.Comment, 2, 6⟩ ∧
      tokenAt ['x', ' ', '-', '-', ' ', 'c', newlineChar, 'y'] 3 = ⟨TokenType.Whitespace, 6, 7⟩ ∧
      tokenAt ['x', ' ', '-', '-', ' ', 'c', newlineChar, 'y'] 4 = ⟨TokenType.BareWord, 7, 8⟩ ∧
      tokenAt ['x', ' ', '-', '-', ' ', 'c', newlineChar, 'y'] 5 = ⟨TokenType.EndOfStream, 8, 8⟩) := by
  refine ⟨?_, ?_, ?_, by decide⟩
  · intro h1 hc hn
    simp only [nextToken]
    rw [hc, hn]
    rw [if_neg (by omega), if_neg (by decide), if_neg (by decide), if_neg (by decide),
      if_neg (by decide), if_neg (by decide), if_neg (by decide), if_neg (by decide),
      if_neg (by decide), if_neg (by decide), if_neg (by decide), if_neg (by decide),
      if_neg (by decide), if_neg (by decide), if_neg (by decide), if_pos rfl]
    rw [if_neg (fun hh => by exact absurd hh.2 (by decide)), if_pos ⟨h1, rfl⟩]
  · intro h1 hc hn
    simp only [nextToken]
    rw [hc, hn]
    rw [if_neg (by omega), if_neg (by decide), if_neg (by decide), if_neg (by decide),
      if_neg (by decide), if_neg (by decide), if_neg (by decide), if_neg (by decide),
      if_neg (by decide), if_neg (by decide), if_neg (by decide), if_neg (by decide),
      if_neg (by decide), if_neg (by decide), if_neg (by decide), if_neg (by decide),
      if_neg (by decide), if_pos rfl]
    rw [if_pos ⟨h1, Or.inl rfl⟩, if_pos rfl]
  · intro h
    unfold find_first_symbols1 at h ⊢
    have hb := byteAt_findIdx (fun c => c == newlineChar) s (pos + 2) h
    simpa [beq_iff_eq] using hb

/-- Witness for C9 at a concrete input: on the two-byte buffer "--" the call
emits a Comment token spanning the whole buffer and the cursor lands at its
end. -/
theorem line_comment_extent_witness :
    nextToken ['-', '-'] 0 = (⟨TokenType.Comment, 0, 2⟩, 2) := by
  have h := (line_comment_extent ['-', '-'] 0).1 (by decide) (by decide) (by decide)
  exact h.trans (by decide)

end DB

namespace DB

/-- C7: on a dot, if the cursor is past the buffer begin and the preceding
byte is a closing round or square bracket or an ASCII alphanumeric, a Dot
token of length 1 is emitted and the cursor advances one byte; otherwise the
dot starts a Number token consuming the dot, the fractional digits and an
optional exponent; in particular a lone dot at the start of the input yields
a Number token of length 1. -/
theorem dot_dispatch (s : List Char) (pos : Nat)
    (h1 : pos < s.length) (h2 : byteAt s pos = '.') :
    ((0 < pos ∧ (byteAt s (pos - 1) = ')' ∨ byteAt s (pos - 1) = ']' ∨
        isAlphaNumericASCII (byteAt s (pos - 1)) = true)) →
      nextToken s pos = (⟨TokenType.Dot, pos, pos + 1⟩, pos + 1)) ∧
    (¬(0 < pos ∧ (byteAt s (pos - 1) = ')' ∨ byteAt s (pos - 1) = ']' ∨
        isAlphaNumericASCII (byteAt s (pos - 1)) = true)) →
      nextToken s pos =
        (⟨TokenType.Number, pos, expTail s (skipWhile isNumericASCII s (pos + 1))⟩,
          expTail s (skipWhile isNumericASCII s (pos + 1)))) ∧
    nextToken ['.'] 0 = (⟨TokenType.Number, 0, 1⟩, 1) := by
  refine ⟨?_, ?_, by decide⟩
  · intro h
    simp only [nextToken]
    rw [h2]
    rw [if_neg (by omega), if_neg (by decide), if_neg (by decide), if_neg (by decide),
      if_neg (by decide), if_neg (by decide), if_neg (by decide), if_neg (by decide),
      if_neg (by decide), if_neg (by decide), if_neg (by decide), if_neg (by decide),
      if_neg (by decide), if_pos rfl]
    rw [if_pos h]
  · intro h
    simp only [nextToken]
    rw [h2]
    rw [if_neg (by omega), if_neg (by decide), if_neg (by decide), if_neg (by decide),
      if_neg (by decide), if_neg (by decide), if_neg (by decide), if_neg (by decide),
      if_neg (by decide), if_neg (by decide), if_neg (by decide), if_neg (by decide),
      if_neg (by decide), if_pos rfl]
    rw [if_neg h]

/-- Witness for C7 at a concrete input: on "a." the dot follows an
alphanumeric byte and is emitted as a Dot token of length 1. -/
theorem dot_dispatch_witness :
    nextToken ['a', '.'] 1 = (⟨TokenType.Dot, 1, 2⟩, 2) :=
  (dot_dispatch ['a', '.'] 1 (by decide) (by decide)).1
    ⟨by decide, Or.inr (Or.inr (by decide))⟩

/-- C5 (amended): when the byte at the cursor is a zero, the following byte
is `x` or `b`, and at least one more byte exists after the `x`/`b`
(`pos + 2 < end`, as the code requires), both bytes are consumed as a radix
prefix and lie inside the emitted Number token. -/
theorem radix_prefix_amended (s : List Char) (pos : Nat)
    (h0 : byteAt s pos = '0')
    (hxb : byteAt s (pos + 1) = 'x' ∨ byteAt s (pos + 1) = 'b')
    (h2 : pos + 2 < s.length) :
    (nextToken s pos).1.type = TokenType.Number ∧
    (nextToken s pos).1.tokBegin = pos ∧
    pos + 2 ≤ (nextToken s pos).1.tokEnd ∧
    (nextToken s pos).2 = (nextToken s pos).1.tokEnd := by
  have key : ∃ x : Nat, nextToken s pos = (⟨TokenType.Number, pos, x⟩, x) ∧ pos + 2 ≤ x := by
    simp only [nextToken]
    rw [h0]
    rw [if_neg (by omega), if_neg (by decide), if_neg (by decide), if_pos (by decide)]
    rw [if_pos (show pos + 2 < s.length ∧ ('0' : Char) = '0' ∧
      (byteAt s (pos + 1) = 'x' ∨ byteAt s (pos + 1) = 'b') from ⟨h2, rfl, hxb⟩)]
    refine ⟨_, rfl, ?_⟩
    refine Nat.le_trans ?_ (expTail_le s _)
    have hsk := skipWhile_le isNumericASCII s (pos + 2)
    split
    · have hsk2 := skipWhile_le isNumericASCII s (skipWhile isNumericASCII s (pos + 2) + 1)
      omega
    · exact hsk
  obtain ⟨x, hx, hle⟩ := key
  rw [hx]
  exact ⟨rfl, rfl, hle, rfl⟩

/-- Witness for C5 (amended) at a concrete input: on "0x1" the whole buffer
is one Number token and the cursor lands past the prefix. -/
theorem radix_prefix_amended_witness :
    (nextToken ['0', 'x', '1'] 0).1.type = TokenType.Number ∧
    (nextToken ['0', 'x', '1'] 0).1.tokBegin = 0 ∧
    0 + 2 ≤ (nextToken ['0', 'x', '1'] 0).1.tokEnd ∧
    (nextToken ['0', 'x', '1'] 0).2 = (nextToken ['0', 'x', '1'] 0).1.tokEnd :=
  radix_prefix_amended ['0', 'x', '1'] 0 (by decide) (Or.inl (by decide)) (by decide)

/-- C6 (amended): when the byte after the digits is `e` or `p` and at least
one byte remains after it, the `e`/`p` is consumed; a following `+`/`-` sign
is consumed only when at least one byte remains after the sign (the code
tests `pos < end - 1` before consuming it); then any decimal digits are
consumed.  Hence "1e+" yields a Number token of length 2 followed by a Plus
token, not a single Number token of length 3. -/
theorem exponent_sign_amended (s : List Char) (p : Nat)
    (h1 : p + 1 < s.length) (he : byteAt s p = 'e' ∨ byteAt s p = 'p') :
    ((p + 2 < s.length ∧ (byteAt s (p + 1) = '-' ∨ byteAt s (p + 1) = '+')) →
      expTail s p = skipWhile isNumericASCII s (p + 2)) ∧
    (¬(p + 2 < s.length ∧ (byteAt s (p + 1) = '-' ∨ byteAt s (p + 1) = '+')) →
      expTail s p = skipWhile isNumericASCII s (p + 1)) ∧
    nextToken ['1', 'e', '+'] 0 = (⟨TokenType.Number, 0, 2⟩, 2) ∧
    nextToken ['1', 'e', '+'] 2 = (⟨TokenType.Plus, 2, 3⟩, 3) := by
  refine ⟨?_, ?_, by decide, by decide⟩
  · intro hs
    unfold expTail
    rw [if_pos ⟨h1, he⟩, if_pos hs]
  · intro hs
    unfold expTail
    rw [if_pos ⟨h1, he⟩, if_neg hs]

/-- Witness for C6 (amended) at a concrete input: in "1e+2" the sign at
offset 2 is followed by a byte, so the exponent tail from the `e` at offset 1
runs to the end of the buffer. -/
theorem exponent_sign_amended_witness :
    expTail ['1', 'e', '+', '2'] 1 = skipWhile isNumericASCII ['1', 'e', '+', '2'] 3 :=
  (exponent_sign_amended ['1', 'e', '+', '2'] 1 (by decide) (Or.inl (by decide))).1
    ⟨by decide, Or.inr (by decide)⟩

end DB

namespace DB

/-- C8 (amended): inside a quoted span, when the forward scan stops on a
quote byte, a quote immediately followed by the same quote byte is a
doubled-quote escape and the loop continues past both bytes; a quote not so
followed completes the lexeme with the success kind and range
`[token_begin, cursor)`; the seven-byte input consisting of quote, i, t,
quote, quote, s, quote produces a single StringLiteral token of length 7
followed by EndOfStream. -/
theorem quote_doubling_amended (q : Char) (succ err : TokenType) (s : List Char)
    (f tb pos : Nat)
    (hlt : find_first_symbols2 q backslashChar s pos < s.length)
    (hq : byteAt s (find_first_symbols2 q backslashChar s pos) = q) :
    ((find_first_symbols2 q backslashChar s pos + 1 < s.length ∧
        byteAt s (find_first_symbols2 q backslashChar s pos + 1) = q) →
      quotedStringLoop (f + 1) q succ err s tb pos =
        quotedStringLoop f q succ err s tb (find_first_symbols2 q backslashChar s pos + 2)) ∧
    (¬(find_first_symbols2 q backslashChar s pos + 1 < s.length ∧
        byteAt s (find_first_symbols2 q backslashChar s pos + 1) = q) →
      quotedStringLoop (f + 1) q succ err s tb pos =
        (⟨succ, tb, find_first_symbols2 q backslashChar s pos + 1⟩,
          find_first_symbols2 q backslashChar s pos + 1)) ∧
    nextToken [singleQuoteChar, 'i', 't', singleQuoteChar, singleQuoteChar, 's', singleQuoteChar] 0 =
      (⟨TokenType.StringLiteral, 0, 7⟩, 7) ∧
    nextToken [singleQuoteChar, 'i', 't', singleQuoteChar, singleQuoteChar, 's', singleQuoteChar] 7 =
      (⟨TokenType.EndOfStream, 7, 7⟩, 7) := by
  refine ⟨?_, ?_, by decide, by decide⟩
  · intro h
    simp only [quotedStringLoop]
    rw [if_neg (by omega), if_pos hq, if_pos h]
  · intro h
    simp only [quotedStringLoop]
    rw [if_neg (by omega), if_pos hq, if_neg h]

/-- Witness for C8 (amended) at a concrete input: scanning the three-byte
buffer quote-a-quote from offset 1, the scan stops on the closing quote at
offset 2, no second quote follows, and the loop completes the StringLiteral
with range up to offset 3. -/
theorem quote_doubling_amended_witness :
    quotedStringLoop 1 singleQuoteChar TokenType.StringLiteral
      TokenType.ErrorSingleQuoteIsNotClosed [singleQuoteChar, 'a', singleQuoteChar] 0 1 =
      (⟨TokenType.StringLiteral, 0, 3⟩, 3) := by
  have h := (quote_doubling_amended singleQuoteChar TokenType.StringLiteral
    TokenType.ErrorSingleQuoteIsNotClosed [singleQuoteChar, 'a', singleQuoteChar] 0 0 1
    (by decide) (by decide)).2.1 (by decide)
  exact h.trans (by decide)

end DB
